import Mathlib

/-!
Verification of the Nox-mini task assistant (`src/pop_v3.py` and the archived
`src/old/pop_v3 copy.py`) against its natural-language specification.

The Python code is shallowly embedded: the task dictionary becomes the
`TaskRec` structure, the persisted JSON document becomes the `Doc`/`Json` types, the
store operations become pure functions that take the current store (and, for
timestamps and fresh ids, explicit `now`/`freshId` arguments, standing for
`datetime.now().isoformat()` and `str(uuid.uuid4())`).

Two versions of the completion operation exist in the repository:
`src/pop_v3.py` (current file, exact-id lookup, parameter `task_id`) and
`src/old/pop_v3 copy.py` (the full three-rule resolver, parameter
`task_identifier`).  The current file's functions live at top level, the
archived file's differing functions live in the `Old` namespace.
-/

/-- The task record: the dictionary built by `add_task_to_json` with its nine
keys (`src/pop_v3.py` lines 47-57, identical in the archived copy).
Named `TaskRec` because `Task` is taken by the Lean core library. -/
structure TaskRec where
  id : String
  title : String
  description : String
  timeline : String
  priority : String
  notes : String
  completed : Bool
  created_at : String
  completed_at : Option String
deriving DecidableEq, Repr

/-- Character-list prefix test, used to model Python's substring operator. -/
def startsWithChars : List Char → List Char → Bool
  | [], _ => true
  | _ :: _, [] => false
  | a :: as, b :: bs => a == b && startsWithChars as bs

/-- Character-list contiguous-substring test. -/
def containsChars (needle : List Char) : List Char → Bool
  | [] => needle.isEmpty
  | b :: bs => startsWithChars needle (b :: bs) || containsChars needle bs

/-- Python's `needle in hay` on strings: contiguous substring containment. -/
def strContains (hay needle : String) : Bool :=
  containsChars needle.toList hay.toList

/-- Python's `str.strip()` with no argument: drop leading and trailing
whitespace.  Implemented on the character list so that it evaluates inside
the kernel (`String.trim` is built on well-founded recursion and does not). -/
def strTrim (s : String) : String :=
  ⟨((s.toList.dropWhile Char.isWhitespace).reverse.dropWhile
      Char.isWhitespace).reverse⟩

/-- Python's `str.lower()` (ASCII range), kernel-computable. -/
def lowerStr (s : String) : String :=
  ⟨s.toList.map Char.toLower⟩

/-- Value of a decimal digit string (most significant first). -/
def digitsToNat (cs : List Char) : Nat :=
  cs.foldl (fun a c => a * 10 + (c.toNat - 48)) 0

/-- Python's `int(s)`: optional surrounding whitespace, optional sign, decimal
digits.  (Digit-group underscores, accepted by CPython, are not modelled; no
theorem below feeds an identifier containing an underscore to it.) -/
def pyParseInt (s : String) : Option Int :=
  match (strTrim s).toList with
  | [] => none
  | '+' :: rest =>
      if rest ≠ [] ∧ rest.all Char.isDigit then some (digitsToNat rest) else none
  | '-' :: rest =>
      if rest ≠ [] ∧ rest.all Char.isDigit then some (-(digitsToNat rest : Int)) else none
  | cs =>
      if cs.all Char.isDigit then some (digitsToNat cs) else none

/-- JSON values, for the persisted `tasks.json` document. -/
inductive Json where
  | null
  | bool (b : Bool)
  | str (s : String)
  | num (n : Int)
  | arr (elems : List Json)
  | obj (fields : List (String × Json))

/-- Key lookup in a JSON object's field list (first binding wins, as in a
Python dict produced by `json.load`). -/
def lookupField (fields : List (String × Json)) (k : String) : Option Json :=
  (fields.find? (fun p => p.1 == k)).map Prod.snd

/-- Serialization of one task record: the JSON object `json.dump` writes for
the dictionary of `add_task_to_json`. -/
def taskToJson (t : TaskRec) : Json :=
  .obj [("id", .str t.id), ("title", .str t.title),
        ("description", .str t.description), ("timeline", .str t.timeline),
        ("priority", .str t.priority), ("notes", .str t.notes),
        ("completed", .bool t.completed), ("created_at", .str t.created_at),
        ("completed_at", match t.completed_at with
                         | none => .null
                         | some s => .str s)]

/-- Read a string field. -/
def asStr : Option Json → Option String
  | some (.str s) => some s
  | _ => none

/-- Read a boolean field. -/
def asBool : Option Json → Option Bool
  | some (.bool b) => some b
  | _ => none

/-- Read a string-or-null field. -/
def asNullableStr : Option Json → Option (Option String)
  | some .null => some none
  | some (.str s) => some (some s)
  | _ => none

/-- Reconstruction of a task record from a loaded JSON object: the key
accesses `task["id"]`, `task["title"]`, ... the program performs on the
dictionaries returned by `json.load`.  `none` models the `KeyError`/`TypeError`
such an access would raise on a structurally alien value. -/
def taskFromJson (j : Json) : Option TaskRec :=
  match j with
  | .obj f => do
      let i ← asStr (lookupField f "id")
      let ti ← asStr (lookupField f "title")
      let d ← asStr (lookupField f "description")
      let tl ← asStr (lookupField f "timeline")
      let p ← asStr (lookupField f "priority")
      let no ← asStr (lookupField f "notes")
      let c ← asBool (lookupField f "completed")
      let ca ← asStr (lookupField f "created_at")
      let co ← asNullableStr (lookupField f "completed_at")
      pure { id := i, title := ti, description := d, timeline := tl,
             priority := p, notes := no, completed := c, created_at := ca,
             completed_at := co }
  | _ => none

/-- Reconstruction of a list of task records from the elements of the loaded
JSON array (each element must decode). -/
def tasksFromJsonList : List Json → Option (List TaskRec)
  | [] => some []
  | j :: js => do
      let t ← taskFromJson j
      let ts ← tasksFromJsonList js
      pure (t :: ts)

/-- Reconstruction of the whole store from the loaded document. -/
def decodeTasks (j : Json) : Option (List TaskRec) :=
  match j with
  | .arr js => tasksFromJsonList js
  | _ => none

/-- States of the persisted `tasks.json` document, as `load_tasks`
distinguishes them: the file may be absent (`FileNotFoundError`), present but
not parseable as JSON (`json.JSONDecodeError`), unreadable for any other
reason (e.g. permissions — the exception propagates), or readable with a
parsed JSON value. -/
inductive Doc where
  | absent
  | malformed
  | ioError
  | valid (j : Json)

/-- Model of `load_tasks` (`src/pop_v3.py` lines 26-33, identical in the archived
copy): returns the parsed document; `FileNotFoundError` and
`json.JSONDecodeError` are both caught and turned into the empty list; any
other exception propagates (modelled as `Except.error`). -/
def load_tasks : Doc → Except Unit Json
  | .absent => .ok (Json.arr [])
  | .malformed => .ok (Json.arr [])
  | .ioError => .error ()
  | .valid j => .ok j

/-- Model of `save_tasks` (`src/pop_v3.py` lines 35-43): rewrites the whole document
with the JSON array of the given tasks, independently of what was stored
before. -/
def save_tasks (ts : List TaskRec) : Doc :=
  .valid (Json.arr (ts.map taskToJson))

/-- First index of an element satisfying `p`, modelling the Python pattern
`for x in xs: if p(x): ... break`. -/
def firstIdx (p : TaskRec → Bool) : List TaskRec → Option Nat
  | [] => none
  | t :: ts => if p t then some 0 else (firstIdx p ts).map (· + 1)

/-- Marking a task completed: `task["completed"] = True;
task["completed_at"] = datetime.now().isoformat()`. -/
def markDone (now : String) (t : TaskRec) : TaskRec :=
  { t with completed := true, completed_at := some now }

/-- Model of `add_task_to_json` (`src/pop_v3.py` lines 45-65, identical in the archived
copy): builds the record with trimmed text fields and lower-cased priority and
appends it to the store.  `freshId` stands for `str(uuid.uuid4())`, `now` for
`datetime.now().isoformat()`.  No validation of any kind is performed. -/
def add_task_to_json (freshId now : String)
    (title description timeline priority notes : String)
    (tasks : List TaskRec) : TaskRec × List TaskRec :=
  let task : TaskRec :=
    { id := freshId, title := strTrim title,
      description := strTrim description, timeline := strTrim timeline,
      priority := lowerStr priority, notes := strTrim notes,
      completed := false, created_at := now, completed_at := none }
  (task, tasks ++ [task])

/-- Model of `complete_task_in_json` of the current file (`src/pop_v3.py` lines 67-77):
walks the store and marks the first task whose `id` equals `task_id` —
whether or not it is already completed — then saves; returns `False` (store
untouched) when no id matches. -/
def complete_task_in_json (now : String) (tasks : List TaskRec)
    (task_id : String) : Bool × List TaskRec :=
  match firstIdx (fun t => t.id == task_id) tasks with
  | none => (false, tasks)
  | some i =>
      match tasks.get? i with
      | none => (false, tasks)  -- unreachable: firstIdx indices are in bounds
      | some t => (true, tasks.set i (markDone now t))

/-- Priority marker of the summary lines. -/
def priority_indicator (p : String) : String :=
  if p = "high" then "🔴" else if p = "medium" then "🟡" else "🟢"

/-- Optional `" | Due: ..."` suffix of a summary line. -/
def timeline_str (t : TaskRec) : String :=
  if t.timeline ≠ "" then " | Due: " ++ t.timeline else ""

/-- Model of `get_tasks_summary` of the current file (`src/pop_v3.py` lines 79-100):
numbered listing of the incomplete tasks followed by the last three completed
ones. -/
def get_tasks_summary (tasks : List TaskRec) : String :=
  if tasks = [] then "No tasks found." else
    let active := tasks.filter (fun t => !t.completed)
    let doneTs := tasks.filter (fun t => t.completed)
    let activePart :=
      s!"Active Tasks ({active.length}):\n" ++
      String.join ((active.enumFrom 1).map (fun p =>
        s!"{p.1}. {priority_indicator p.2.priority} {p.2.title}{timeline_str p.2}\n"))
    let donePart :=
      if doneTs = [] then "" else
        s!"\nCompleted Tasks ({doneTs.length}):\n" ++
        String.join (((doneTs.drop (doneTs.length - 3)).enumFrom 1).map (fun p =>
          s!"{p.1}. ✅ {p.2.title}\n"))
    activePart ++ donePart

/-- One parameter of a tool-catalog entry. -/
structure ParamSpec where
  pname : String
  ptype : String
  enumVals : Option (List String)
deriving DecidableEq, Repr

/-- One tool-catalog entry: name, description, parameter schemas and the
required-parameter subset. -/
structure ToolDef where
  tname : String
  tdescription : String
  params : List ParamSpec
  required : List String
deriving DecidableEq, Repr

/-- Model of `get_function_definitions` of the current file (`src/pop_v3.py` lines
102-159): the static tool catalog handed to the completion service. -/
def get_function_definitions : List ToolDef :=
  [{ tname := "add_task",
     tdescription := "Add a new task to the user's task list",
     params := [⟨"title", "string", none⟩, ⟨"description", "string", none⟩,
                ⟨"timeline", "string", none⟩,
                ⟨"priority", "string", some ["low", "medium", "high"]⟩,
                ⟨"notes", "string", none⟩],
     required := ["title"] },
   { tname := "get_tasks",
     tdescription := "Get the current list of tasks",
     params := [], required := [] },
   { tname := "complete_task",
     tdescription := "Mark a task as completed",
     params := [⟨"task_id", "string", none⟩],
     required := ["task_id"] }]

/-- The argument keys `execute_function_call` of the current file reads
(via `arguments.get(...)`) for each function name it dispatches; `none` for
names outside its dispatch table. -/
def dispatchArgKeys (name : String) : Option (List String) :=
  if name = "add_task" then
    some ["title", "description", "timeline", "priority", "notes"]
  else if name = "get_tasks" then some []
  else if name = "complete_task" then some ["task_id"]
  else none

/-- The argument dictionary of a tool call, as key lookup. -/
def Args : Type := String → Option String

/-- The structured result dictionary `execute_function_call` returns: the keys
that occur across its branches (`success` always; `message`, `task`, `tasks`,
`summary` only in some branches, hence `Option`). -/
structure CallResult where
  success : Bool
  message : Option String
  task : Option TaskRec
  tasks : Option (List TaskRec)
  summary : Option String
deriving DecidableEq, Repr

/-- Model of `execute_function_call` of the current file (`src/pop_v3.py` lines
161-189): dispatch by function name; the result is always a structured
dictionary, never an exception.  A missing `task_id` key gives
`arguments.get("task_id") = None`, which matches no task id and renders as
`"None"` in the failure message. -/
def execute_function_call (freshId now : String) (function_name : String)
    (arguments : Args) (tasks : List TaskRec) : CallResult × List TaskRec :=
  if function_name = "add_task" then
    let r := add_task_to_json freshId now
      ((arguments "title").getD "") ((arguments "description").getD "")
      ((arguments "timeline").getD "") ((arguments "priority").getD "medium")
      ((arguments "notes").getD "") tasks
    ({ success := true,
       message := some ("Task '" ++ r.1.title ++ "' added successfully"),
       task := some r.1, tasks := none, summary := none }, r.2)
  else if function_name = "get_tasks" then
    ({ success := true, message := none, task := none, tasks := some tasks,
       summary := some (get_tasks_summary tasks) }, tasks)
  else if function_name = "complete_task" then
    match arguments "task_id" with
    | none =>
        ({ success := false, message := some "Task None not found",
           task := none, tasks := none, summary := none }, tasks)
    | some tid =>
        let r := complete_task_in_json now tasks tid
        if r.1 then
          ({ success := true,
             message := some ("Task " ++ tid ++ " marked as completed"),
             task := none, tasks := none, summary := none }, r.2)
        else
          ({ success := false,
             message := some ("Task " ++ tid ++ " not found"),
             task := none, tasks := none, summary := none }, r.2)
  else
    ({ success := false,
       message := some ("Unknown function: " ++ function_name),
       task := none, tasks := none, summary := none }, tasks)

namespace Old

/-- Rule 1 of `complete_task_in_json` in the archived file
(`src/old/pop_v3 copy.py` lines 73-77): first task with an exact `id` match
that is not completed. -/
def rule1Idx (tasks : List TaskRec) (task_identifier : String) : Option Nat :=
  firstIdx (fun t => t.id == task_identifier && !t.completed) tasks

/-- Rule 2 (lines 79-84): first incomplete task whose lower-cased title
contains the lower-cased identifier as a substring. -/
def rule2Idx (tasks : List TaskRec) (task_identifier : String) : Option Nat :=
  firstIdx (fun t => !t.completed &&
    strContains (lowerStr t.title) (lowerStr task_identifier)) tasks

/-- The incomplete tasks paired with their positions in the store (`active
tasks`, but keeping the original index so that the selected element can be
updated in place, as the Python code does through object aliasing). -/
def activeEnum (tasks : List TaskRec) : List (Nat × TaskRec) :=
  tasks.enum.filter (fun p => !p.2.completed)

/-- Rule 3 (lines 86-94): parse the identifier as an integer, subtract one,
and — when `0 <= index < len(active_tasks)` — take that position of the
incomplete-task sub-sequence. -/
def rule3Idx (tasks : List TaskRec) (task_identifier : String) : Option Nat :=
  match pyParseInt task_identifier with
  | none => none
  | some i =>
      let index := i - 1
      let active := activeEnum tasks
      if 0 ≤ index ∧ index < (active.length : Int) then
        (active.get? index.toNat).map Prod.fst
      else none

/-- The resolution cascade of the archived `complete_task_in_json`: rule 1,
then — only if it found nothing — rule 2, then rule 3. -/
def resolveIdx (tasks : List TaskRec) (task_identifier : String) : Option Nat :=
  match rule1Idx tasks task_identifier with
  | some i => some i
  | none =>
      match rule2Idx tasks task_identifier with
      | some i => some i
      | none => rule3Idx tasks task_identifier

/-- Model of `complete_task_in_json` of the archived file (`src/old/pop_v3 copy.py`
lines 68-101): resolve the identifier; on a match mark that task completed
and save, otherwise return `False` with the store untouched. -/
def complete_task_in_json (now : String) (tasks : List TaskRec)
    (task_identifier : String) : Bool × List TaskRec :=
  match resolveIdx tasks task_identifier with
  | none => (false, tasks)
  | some i =>
      match tasks.get? i with
      | none => (false, tasks)  -- unreachable: resolver indices are in bounds
      | some t => (true, tasks.set i (markDone now t))

/-- The numbered enumeration of incomplete tasks that the archived
`get_tasks_summary` prints (`enumerate(active_tasks, 1)`,
`src/old/pop_v3 copy.py` line 114). -/
def activeEnum1 (tasks : List TaskRec) : List (Nat × TaskRec) :=
  (tasks.filter (fun t => !t.completed)).enumFrom 1

/-- One active-task line of the archived summary, with the `[ID: ...]` tag. -/
def activeLine (p : Nat × TaskRec) : String :=
  s!"{p.1}. {priority_indicator p.2.priority} {p.2.title}{timeline_str p.2} [ID: {p.2.id}]\n"

/-- Model of `get_tasks_summary` of the archived file (`src/old/pop_v3 copy.py` lines
103-125): like the current one but each line carries the task id. -/
def get_tasks_summary (tasks : List TaskRec) : String :=
  if tasks = [] then "No tasks found." else
    let active := tasks.filter (fun t => !t.completed)
    let doneTs := tasks.filter (fun t => t.completed)
    let activePart :=
      s!"Active Tasks ({active.length}):\n" ++
      String.join ((activeEnum1 tasks).map activeLine)
    let donePart :=
      if doneTs = [] then "" else
        s!"\nCompleted Tasks ({doneTs.length}):\n" ++
        String.join (((doneTs.drop (doneTs.length - 3)).enumFrom 1).map (fun p =>
          s!"{p.1}. ✅ {p.2.title} [ID: {p.2.id}]\n"))
    activePart ++ donePart

/-- The archived `complete_task_in_json` acting on the persisted document:
`load_tasks`, resolve, and on a match `save_tasks` of the mutated list.
`none` models a propagating exception (unreadable file, or key accesses on a
document that is not an array of task objects). -/
def complete_task_doc (now task_identifier : String) (d : Doc) :
    Option (Doc × Bool) :=
  match load_tasks d with
  | .error _ => none
  | .ok j =>
      match decodeTasks j with
      | none => none
      | some tasks =>
          match complete_task_in_json now tasks task_identifier with
          | (false, _) => some (d, false)
          | (true, tasks') => some (save_tasks tasks', true)

end Old

/-- Token-usage counters of one completion-service call. -/
structure Usage where
  prompt_tokens : Nat
  completion_tokens : Nat
deriving DecidableEq, Repr

/-- One tool invocation request carried by a model response.  `tcargs = none`
models `json.loads(tool_call.function.arguments)` raising
`json.JSONDecodeError`. -/
structure ToolCallReq where
  tcname : String
  tcargs : Option Args

/-- A completion-service response: reply text, the (possibly empty) list of
tool calls — the code honors only the first — and usage counters. -/
structure ChatResponse where
  content : String
  tool_calls : List ToolCallReq
  usage : Usage

/-- GPT-4o-mini prompt-token rate hard-coded at `src/pop_v3.py` line 432:
`$0.00000015` per token, as an exact rational. -/
def rate_in : ℚ := 15 / 100000000

/-- GPT-4o-mini completion-token rate hard-coded at `src/pop_v3.py` line 433:
`$0.0000006` per token, as an exact rational. -/
def rate_out : ℚ := 6 / 10000000

/-- Model of `get_gpt_response` (`src/pop_v3.py` lines 354-442), with the two
completion-service calls passed in as `resp1`/`resp2` (`Except.error` models a
raised transport/provider exception; `resp2` is only consulted when the first
response carries a tool call).  Returns the task store, the updated
process-lifetime `total_cost`, and either the final reply or the error the
UI thread receives.  Cost arithmetic is modelled with exact rationals in
place of Python floats. -/
def get_gpt_response (freshId now : String) (tasks : List TaskRec)
    (total_cost : ℚ) (resp1 resp2 : Except String ChatResponse) :
    List TaskRec × ℚ × Except String String :=
  match resp1 with
  | .error e => (tasks, total_cost, .error e)
  | .ok r1 =>
      match r1.tool_calls with
      | [] =>
          (tasks,
           total_cost + ((r1.usage.prompt_tokens : ℚ) * rate_in
             + (r1.usage.completion_tokens : ℚ) * rate_out),
           .ok r1.content)
      | tc :: _ =>
          match tc.tcargs with
          | none => (tasks, total_cost, .error "Invalid function arguments")
          | some args =>
              let r := execute_function_call freshId now tc.tcname args tasks
              match resp2 with
              | .error e => (r.2, total_cost, .error e)
              | .ok r2 =>
                  (r.2,
                   total_cost
                     + (((r1.usage.prompt_tokens + r2.usage.prompt_tokens : Nat) : ℚ) * rate_in
                       + ((r1.usage.completion_tokens + r2.usage.completion_tokens : Nat) : ℚ) * rate_out),
                   .ok r2.content)

/-! ### Helper lemmas -/

theorem firstIdx_eq_none {p : TaskRec → Bool} {l : List TaskRec}
    (h : ∀ t ∈ l, p t = false) : firstIdx p l = none := by
  induction l with
  | nil => rfl
  | cons a as ih =>
      simp only [firstIdx, h a (List.mem_cons_self a as)]
      simp [ih (fun t ht => h t (List.mem_cons_of_mem a ht))]

theorem firstIdx_eq_some {p : TaskRec → Bool} {l : List TaskRec} {i : Nat}
    {t : TaskRec} (hget : l.get? i = some t) (hp : p t = true)
    (hfirst : ∀ j u, j < i → l.get? j = some u → p u = false) :
    firstIdx p l = some i := by
  induction l generalizing i with
  | nil => simp at hget
  | cons a as ih =>
      cases i with
      | zero =>
          simp only [List.get?] at hget
          cases hget
          simp [firstIdx, hp]
      | succ n =>
          have ha : p a = false :=
            hfirst 0 a (Nat.succ_pos n) rfl
          simp only [firstIdx, ha]
          have : firstIdx p as = some n := by
            refine ih hget ?_
            intro j u hj hu
            exact hfirst (j + 1) u (Nat.succ_lt_succ hj) hu
          simp [this]

theorem firstIdx_spec {p : TaskRec → Bool} {l : List TaskRec} {i : Nat}
    (h : firstIdx p l = some i) :
    ∃ t, l.get? i = some t ∧ p t = true := by
  induction l generalizing i with
  | nil => simp [firstIdx] at h
  | cons a as ih =>
      by_cases hp : p a = true
      · simp [firstIdx, hp] at h
        subst h
        exact ⟨a, rfl, hp⟩
      · simp [firstIdx, hp] at h
        obtain ⟨n, hn, rfl⟩ := h
        obtain ⟨t, ht, hpt⟩ := ih hn
        exact ⟨t, ht, hpt⟩

theorem filterEnum_length (l : List TaskRec) (i : Nat) :
    ((l.enumFrom i).filter (fun p => !p.2.completed)).length
      = (l.filter (fun t => !t.completed)).length := by
  induction l generalizing i with
  | nil => rfl
  | cons a as ih =>
      by_cases hc : a.completed
      · simp [List.enumFrom, List.filter, hc, ih]
      · simp [List.enumFrom, List.filter, hc, ih]

theorem filterEnum_get? (l : List TaskRec) (i m : Nat) {k : Nat} {t : TaskRec}
    (h : ((l.enumFrom i).filter (fun p => !p.2.completed)).get? m = some (k, t)) :
    i ≤ k ∧ l.get? (k - i) = some t ∧ t.completed = false ∧
      (l.filter (fun u => !u.completed)).get? m = some t := by
  induction l generalizing i m with
  | nil => simp [List.enumFrom] at h
  | cons a as ih =>
      by_cases hc : a.completed
      · simp only [List.enumFrom, List.filter, hc] at h ⊢
        obtain ⟨hik, hget, hcf, hfil⟩ := ih (i + 1) m h
        refine ⟨Nat.le_of_succ_le hik, ?_, hcf, by simpa [hc] using hfil⟩
        have hk : 1 ≤ k - i := by omega
        have : k - i = (k - (i + 1)) + 1 := by omega
        rw [this]
        simpa using hget
      · simp only [List.enumFrom, List.filter, hc] at h ⊢
        cases m with
        | zero =>
            simp only [List.get?] at h
            cases h
            refine ⟨Nat.le_refl _, ?_, by simpa using hc, rfl⟩
            simp
        | succ n =>
            simp only [List.get?] at h
            obtain ⟨hik, hget, hcf, hfil⟩ := ih (i + 1) n h
            refine ⟨Nat.le_of_succ_le hik, ?_, hcf, by simpa using hfil⟩
            have : k - i = (k - (i + 1)) + 1 := by omega
            rw [this]
            simpa using hget

theorem filterEnum_get?_isSome (l : List TaskRec) (i m : Nat)
    (h : m < (l.filter (fun u => !u.completed)).length) :
    ∃ k t, ((l.enumFrom i).filter (fun p => !p.2.completed)).get? m
      = some (k, t) := by
  have hlen : m < ((l.enumFrom i).filter (fun p => !p.2.completed)).length := by
    rw [filterEnum_length]; exact h
  cases hx : ((l.enumFrom i).filter (fun p => !p.2.completed)).get? m with
  | none =>
      have := List.get?_eq_none.mp hx
      omega
  | some kt => exact ⟨kt.1, kt.2, by simp [hx]⟩

theorem resolveIdx_incomplete {tasks : List TaskRec} {ident : String} {i : Nat}
    (h : Old.resolveIdx tasks ident = some i) :
    ∃ t, tasks.get? i = some t ∧ t.completed = false := by
  unfold Old.resolveIdx at h
  cases h1 : Old.rule1Idx tasks ident with
  | some j =>
      rw [h1] at h
      cases h
      obtain ⟨t, ht, hp⟩ := firstIdx_spec h1
      simp only [Bool.and_eq_true, Bool.not_eq_true', beq_iff_eq] at hp
      exact ⟨t, ht, hp.2⟩
  | none =>
      rw [h1] at h
      cases h2 : Old.rule2Idx tasks ident with
      | some j =>
          rw [h2] at h
          cases h
          obtain ⟨t, ht, hp⟩ := firstIdx_spec h2
          simp only [Bool.and_eq_true, Bool.not_eq_true'] at hp
          exact ⟨t, ht, hp.1⟩
      | none =>
          rw [h2] at h
          unfold Old.rule3Idx at h
          cases hp : pyParseInt ident with
          | none => rw [hp] at h; cases h
          | some n =>
              rw [hp] at h
              simp only at h
              split at h
              · cases hx : (Old.activeEnum tasks).get? (n - 1).toNat with
                | none => rw [hx] at h; cases h
                | some kt =>
                    rw [hx] at h
                    simp only [Option.map_some'] at h
                    cases h
                    obtain ⟨-, hget, hcf, -⟩ :=
                      filterEnum_get? tasks 0 (n - 1).toNat
                        (by simpa [Old.activeEnum, List.enum] using hx)
                    exact ⟨kt.2, by simpa using hget, hcf⟩
              · cases h

theorem taskFromJson_taskToJson (t : TaskRec) :
    taskFromJson (taskToJson t) = some t := by
  cases t with
  | mk i ti d tl p no c ca co => cases co <;> rfl

theorem decodeTasks_encode (ts : List TaskRec) :
    decodeTasks (Json.arr (ts.map taskToJson)) = some ts := by
  induction ts with
  | nil => rfl
  | cons a as ih =>
      simp only [decodeTasks, List.map_cons, tasksFromJsonList,
        taskFromJson_taskToJson, Option.bind_eq_bind, Option.some_bind]
      simp only [decodeTasks] at ih
      simp [ih]

theorem rule1_firstIdx_eq {tasks : List TaskRec} {ident : String} {i : Nat}
    {t : TaskRec} (hget : tasks.get? i = some t) (hid : t.id = ident)
    (hinc : t.completed = false)
    (hfirst : ∀ j u, j < i → tasks.get? j = some u →
      ¬(u.id = ident ∧ u.completed = false)) :
    Old.rule1Idx tasks ident = some i := by
  refine firstIdx_eq_some hget (by simp [hid, hinc]) ?_
  intro j u hj hu
  have hn := hfirst j u hj hu
  by_cases h1 : u.id = ident
  · cases hb : u.completed with
    | false => exact absurd ⟨h1, hb⟩ hn
    | true => simp [h1, hb]
  · simp [h1]

theorem rule1_none {tasks : List TaskRec} {ident : String}
    (h : ∀ t ∈ tasks, ¬(t.id = ident ∧ t.completed = false)) :
    Old.rule1Idx tasks ident = none := by
  refine firstIdx_eq_none ?_
  intro t ht
  have hn := h t ht
  by_cases h1 : t.id = ident
  · cases hb : t.completed with
    | false => exact absurd ⟨h1, hb⟩ hn
    | true => simp [h1, hb]
  · simp [h1]

theorem rule2_none {tasks : List TaskRec} {ident : String}
    (h : ∀ t ∈ tasks, t.completed = false →
      strContains (lowerStr t.title) (lowerStr ident) = false) :
    Old.rule2Idx tasks ident = none := by
  refine firstIdx_eq_none ?_
  intro t ht
  cases hb : t.completed with
  | false => simp [hb, h t ht hb]
  | true => simp [hb]

/-- Claim C1: the archived `complete_task_in_json` (the spec's
`resolve_and_complete`) tries the three resolution rules in strict priority
order, stopping at the first match: an exact id match among incomplete tasks
wins over everything (first conjunct, in particular over a title-substring
match); when no incomplete task matches by id, the first incomplete
title-substring match in storage order wins (second conjunct); when neither
rule matches, resolution falls through to positional rule 3 (third
conjunct). -/
theorem c1_resolution_priority (now ident : String) (tasks : List TaskRec) :
    (∀ i t, tasks.get? i = some t → t.id = ident → t.completed = false →
      (∀ j u, j < i → tasks.get? j = some u →
        ¬(u.id = ident ∧ u.completed = false)) →
      Old.complete_task_in_json now tasks ident
        = (true, tasks.set i (markDone now t)))
    ∧
    ((∀ t ∈ tasks, ¬(t.id = ident ∧ t.completed = false)) →
      ∀ i t, tasks.get? i = some t → t.completed = false →
        strContains (lowerStr t.title) (lowerStr ident) = true →
        (∀ j u, j < i → tasks.get? j = some u →
          ¬(u.completed = false ∧
            strContains (lowerStr u.title) (lowerStr ident) = true)) →
        Old.complete_task_in_json now tasks ident
          = (true, tasks.set i (markDone now t)))
    ∧
    ((∀ t ∈ tasks, ¬(t.id = ident ∧ t.completed = false)) →
      (∀ t ∈ tasks, t.completed = false →
        strContains (lowerStr t.title) (lowerStr ident) = false) →
      Old.resolveIdx tasks ident = Old.rule3Idx tasks ident) := by
  refine ⟨?_, ?_, ?_⟩
  · intro i t hget hid hinc hfirst
    have h1 : Old.rule1Idx tasks ident = some i :=
      rule1_firstIdx_eq hget hid hinc hfirst
    have hres : Old.resolveIdx tasks ident = some i := by
      unfold Old.resolveIdx
      rw [h1]
    have hget' : tasks[i]? = some t := by
      rw [← List.get?_eq_getElem?]; exact hget
    simp [Old.complete_task_in_json, hres, hget']
  · intro hno1 i t hget hinc hsub hfirst
    have h1 : Old.rule1Idx tasks ident = none := rule1_none hno1
    have h2 : Old.rule2Idx tasks ident = some i := by
      refine firstIdx_eq_some hget (by simp [hinc, hsub]) ?_
      intro j u hj hu
      have hn := hfirst j u hj hu
      cases hb : u.completed with
      | true => simp [hb]
      | false =>
          cases hs : strContains (lowerStr u.title) (lowerStr ident) with
          | true => exact absurd ⟨hb, hs⟩ hn
          | false => simp [hb, hs]
    have hres : Old.resolveIdx tasks ident = some i := by
      unfold Old.resolveIdx
      rw [h1, h2]
    have hget' : tasks[i]? = some t := by
      rw [← List.get?_eq_getElem?]; exact hget
    simp [Old.complete_task_in_json, hres, hget']
  · intro hno1 hno2
    have h1 : Old.rule1Idx tasks ident = none := rule1_none hno1
    have h2 : Old.rule2Idx tasks ident = none := rule2_none hno2
    unfold Old.resolveIdx
    rw [h1, h2]

/-- An incomplete sample task, for concrete witnesses. -/
def sampleInc (i ti : String) : TaskRec :=
  { id := i, title := ti, description := "", timeline := "",
    priority := "medium", notes := "", completed := false,
    created_at := "2024-01-01T00:00:00", completed_at := none }

/-- A completed sample task, for concrete witnesses. -/
def sampleDone (i ti : String) : TaskRec :=
  { id := i, title := ti, description := "", timeline := "",
    priority := "medium", notes := "", completed := true,
    created_at := "2024-01-01T00:00:00",
    completed_at := some "2024-01-02T00:00:00" }

/-- Witness for C1, the claim's own scenario: an incomplete task with id `X`
and title `Write report` alongside an incomplete task titled `Write X`
(whose title contains `X`); resolving `"X"` completes the first — matched by
id — not the second. -/
theorem c1_resolution_priority_witness :
    Old.complete_task_in_json "2024-03-01T00:00:00"
        [sampleInc "X" "Write report", sampleInc "b" "Write X"] "X"
      = (true, [markDone "2024-03-01T00:00:00" (sampleInc "X" "Write report"),
                sampleInc "b" "Write X"]) := by
  have h := (c1_resolution_priority "2024-03-01T00:00:00" "X"
      [sampleInc "X" "Write report", sampleInc "b" "Write X"]).1
      0 (sampleInc "X" "Write report") rfl rfl rfl
      (by intro j u hj hu; omega)
  simpa using h

theorem old_complete_of_resolve_none {now ident : String}
    {tasks : List TaskRec} (hres : Old.resolveIdx tasks ident = none) :
    Old.complete_task_in_json now tasks ident = (false, tasks) := by
  simp [Old.complete_task_in_json, hres]

theorem old_complete_of_resolve_some {now ident : String}
    {tasks : List TaskRec} {i : Nat} {t : TaskRec}
    (hres : Old.resolveIdx tasks ident = some i)
    (hget : tasks.get? i = some t) :
    Old.complete_task_in_json now tasks ident
      = (true, tasks.set i (markDone now t)) := by
  have hget' : tasks[i]? = some t := by
    rw [← List.get?_eq_getElem?]; exact hget
  simp [Old.complete_task_in_json, hres, hget']

/-- Counterexample for C2: in the current `src/pop_v3.py`, completing an
already-completed task by its exact id does not return `NotFound` — it
succeeds, rewrites the store, and overwrites the previously set
`completed_at` (`2024-01-02...` becomes `2024-06-01...`). -/
theorem c2_counterexample :
    complete_task_in_json "2024-06-01T00:00:00"
        [sampleDone "abc" "Ship the report"] "abc"
      = (true, [{ sampleDone "abc" "Ship the report" with
                  completed := true,
                  completed_at := some "2024-06-01T00:00:00" }])
    ∧ (sampleDone "abc" "Ship the report").completed_at
        = some "2024-01-02T00:00:00" := ⟨rfl, rfl⟩

/-- Claim C2, amended: (1) in the current `complete_task_in_json`, an
identifier matching no task id returns `NotFound` and leaves the store
unchanged; (2) the archived resolver returns `NotFound` with the store
unchanged whenever no rule matches (and an identifier whose only candidates
are completed tasks matches no rule, since every rule is restricted to
incomplete tasks); (3) under the archived resolver a completed task — hence
its `completed_at` — is never touched; (4) acting on the persisted document,
a failed archived resolution returns the document byte-for-byte unchanged;
but (5) the current `complete_task_in_json` completes the first exact id
match even when that task is already completed, overwriting its
`completed_at` (counterexample `c2_counterexample`). -/
theorem c2_notfound_no_mutation (now ident : String) (tasks : List TaskRec) :
    ((∀ t ∈ tasks, t.id ≠ ident) →
      complete_task_in_json now tasks ident = (false, tasks))
    ∧
    (Old.resolveIdx tasks ident = none →
      Old.complete_task_in_json now tasks ident = (false, tasks))
    ∧
    (∀ j t, tasks.get? j = some t → t.completed = true →
      ((Old.complete_task_in_json now tasks ident).2).get? j = some t)
    ∧
    (Old.resolveIdx tasks ident = none →
      Old.complete_task_doc now ident (save_tasks tasks)
        = some (save_tasks tasks, false))
    ∧
    (∀ i t, tasks.get? i = some t → t.id = ident →
      (∀ j u, j < i → tasks.get? j = some u → u.id ≠ ident) →
      complete_task_in_json now tasks ident
        = (true, tasks.set i (markDone now t))) := by
  refine ⟨?_, ?_, ?_, ?_, ?_⟩
  · intro h
    have hf : firstIdx (fun t => t.id == ident) tasks = none := by
      refine firstIdx_eq_none ?_
      intro t ht
      simp [h t ht]
    simp [complete_task_in_json, hf]
  · intro hres
    exact old_complete_of_resolve_none hres
  · intro j t hget hdone
    cases hres : Old.resolveIdx tasks ident with
    | none =>
        rw [old_complete_of_resolve_none hres]
        exact hget
    | some i =>
        obtain ⟨u, hu, huinc⟩ := resolveIdx_incomplete hres
        rw [old_complete_of_resolve_some hres hu]
        have hij : i ≠ j := by
          intro h
          subst h
          rw [hget] at hu
          cases hu
          rw [hdone] at huinc
          cases huinc
        simp only [List.get?_eq_getElem?] at hget ⊢
        rw [List.getElem?_set_ne hij]
        exact hget
  · intro hres
    have hcomp : Old.complete_task_in_json now tasks ident = (false, tasks) :=
      old_complete_of_resolve_none hres
    simp [Old.complete_task_doc, save_tasks, load_tasks, decodeTasks_encode,
      hcomp]
  · intro i t hget hid hfirst
    have hf : firstIdx (fun t => t.id == ident) tasks = some i := by
      refine firstIdx_eq_some hget (by simp [hid]) ?_
      intro j u hj hu
      simp [hfirst j u hj hu]
    have hget' : tasks[i]? = some t := by
      rw [← List.get?_eq_getElem?]; exact hget
    simp [complete_task_in_json, hf, hget']

/-- Witness for C2: on a store with one incomplete task `Buy milk` (id `a`),
the identifier `zzz` matches nothing: the current operation returns
`NotFound` with the store unchanged, and the archived operation leaves the
persisted document unchanged. -/
theorem c2_notfound_no_mutation_witness :
    complete_task_in_json "2024-06-01T00:00:00"
        [sampleInc "a" "Buy milk"] "zzz"
      = (false, [sampleInc "a" "Buy milk"])
    ∧ Old.complete_task_doc "2024-06-01T00:00:00" "zzz"
        (save_tasks [sampleInc "a" "Buy milk"])
      = some (save_tasks [sampleInc "a" "Buy milk"], false) :=
  ⟨(c2_notfound_no_mutation "2024-06-01T00:00:00" "zzz"
      [sampleInc "a" "Buy milk"]).1 (by decide),
   (c2_notfound_no_mutation "2024-06-01T00:00:00" "zzz"
      [sampleInc "a" "Buy milk"]).2.2.2.1 (by decide)⟩

/-- Core of positional resolution: when rules 1 and 2 find nothing and the
identifier parses as a base-1 integer in range, the archived
`complete_task_in_json` completes the `n`-th incomplete task in storage
order (shared by the theorems for C3 and C10). -/
theorem rule3_resolution (now ident : String) (tasks : List TaskRec)
    (n : Int)
    (hno1 : ∀ t ∈ tasks, ¬(t.id = ident ∧ t.completed = false))
    (hno2 : ∀ t ∈ tasks, t.completed = false →
      strContains (lowerStr t.title) (lowerStr ident) = false)
    (hparse : pyParseInt ident = some n)
    (hlo : 1 ≤ n)
    (hhi : n ≤ ((tasks.filter (fun u => !u.completed)).length : Int)) :
    ∃ k t, (Old.activeEnum tasks).get? (n - 1).toNat = some (k, t) ∧
      (tasks.filter (fun u => !u.completed)).get? (n - 1).toNat = some t ∧
      Old.complete_task_in_json now tasks ident
        = (true, tasks.set k (markDone now t)) := by
  have hr1 : Old.rule1Idx tasks ident = none := rule1_none hno1
  have hr2 : Old.rule2Idx tasks ident = none := rule2_none hno2
  have henum_eq : Old.activeEnum tasks
      = (tasks.enumFrom 0).filter (fun p => !p.2.completed) := by
    simp [Old.activeEnum, List.enum]
  have hlen : (Old.activeEnum tasks).length
      = (tasks.filter (fun u => !u.completed)).length := by
    rw [henum_eq]; exact filterEnum_length tasks 0
  have hmlt : (n - 1).toNat < (tasks.filter (fun u => !u.completed)).length := by
    omega
  obtain ⟨k, t, henum⟩ := filterEnum_get?_isSome tasks 0 (n - 1).toNat hmlt
  have henum' : (Old.activeEnum tasks).get? (n - 1).toNat = some (k, t) := by
    rw [henum_eq]; exact henum
  obtain ⟨-, hget, -, hfil⟩ := filterEnum_get? tasks 0 (n - 1).toNat henum
  rw [Nat.sub_zero] at hget
  have hr3 : Old.rule3Idx tasks ident = some k := by
    unfold Old.rule3Idx
    rw [hparse]
    simp only
    rw [if_pos ⟨by omega, by omega⟩, henum', Option.map_some']
  have hres : Old.resolveIdx tasks ident = some k := by
    unfold Old.resolveIdx
    rw [hr1, hr2, hr3]
  exact ⟨k, t, henum', hfil, old_complete_of_resolve_some hres hget⟩

/-- Claim C3: positional resolution (rule 3 of the archived
`complete_task_in_json`) is computed over the sub-sequence of incomplete
tasks in storage order only.  When rules 1 and 2 find nothing (which is when
rule 3 is consulted) and the identifier parses as a base-1 integer `n` with
`1 ≤ n ≤` (count of incomplete tasks), the operation completes exactly the
`n`-th incomplete task in storage order, at its original position `k` in the
store. -/
theorem c3_positional_resolution (now ident : String) (tasks : List TaskRec)
    (n : Int)
    (hno1 : ∀ t ∈ tasks, ¬(t.id = ident ∧ t.completed = false))
    (hno2 : ∀ t ∈ tasks, t.completed = false →
      strContains (lowerStr t.title) (lowerStr ident) = false)
    (hparse : pyParseInt ident = some n)
    (hlo : 1 ≤ n)
    (hhi : n ≤ ((tasks.filter (fun u => !u.completed)).length : Int)) :
    ∃ k t, (Old.activeEnum tasks).get? (n - 1).toNat = some (k, t) ∧
      (tasks.filter (fun u => !u.completed)).get? (n - 1).toNat = some t ∧
      Old.complete_task_in_json now tasks ident
        = (true, tasks.set k (markDone now t)) :=
  rule3_resolution now ident tasks n hno1 hno2 hparse hlo hhi

/-- Witness for C3, the claim's own scenario: tasks `[A (completed),
B (incomplete), C (incomplete)]`; resolving `"1"` completes `B` (the first
*incomplete* task), not `A`. -/
theorem c3_positional_resolution_witness :
    Old.complete_task_in_json "2024-03-02T00:00:00"
        [sampleDone "a" "A", sampleInc "b" "B", sampleInc "c" "C"] "1"
      = (true, [sampleDone "a" "A",
                markDone "2024-03-02T00:00:00" (sampleInc "b" "B"),
                sampleInc "c" "C"]) := by
  obtain ⟨k, t, henum, -, hcomp⟩ :=
    c3_positional_resolution "2024-03-02T00:00:00" "1"
      [sampleDone "a" "A", sampleInc "b" "B", sampleInc "c" "C"] 1
      (by decide) (by decide) (by decide) (by decide) (by decide)
  have hval : (Old.activeEnum
      [sampleDone "a" "A", sampleInc "b" "B", sampleInc "c" "C"]).get?
      ((1 : Int) - 1).toNat = some (1, sampleInc "b" "B") := by decide
  have h := Option.some.inj (hval.symm.trans henum)
  injection h.symm with hk ht
  subst hk
  subst ht
  simpa using hcomp

/-- The record the program builds when `add_task` is dispatched with a
whitespace-only title. -/
def emptyTitleTask : TaskRec :=
  { id := "id0", title := "", description := "", timeline := "",
    priority := "medium", notes := "", completed := false,
    created_at := "2024-05-01T00:00:00", completed_at := none }

/-- Counterexample for C4: dispatching `add_task` with the whitespace-only
title `"   "` on an empty store does **not** fail with `InvalidInput` — it
reports success and appends a record with an empty title, so the store
changes. -/
theorem c4_counterexample :
    execute_function_call "id0" "2024-05-01T00:00:00" "add_task"
        (fun k => if k = "title" then some "   " else none) []
      = ({ success := true, message := some "Task '' added successfully",
           task := some emptyTitleTask, tasks := none, summary := none },
         [emptyTitleTask])
    ∧ [emptyTitleTask] ≠ ([] : List TaskRec) := by
  constructor
  · rfl
  · decide

/-- Claim C4, amended: `add_task_to_json` performs no validation at all.  For
every input — including an empty or whitespace-only title — it appends
exactly one new record (leaving the existing records untouched) and returns
it; the record carries the trimmed title/description/timeline/notes, the
lower-cased priority, `completed = false` and an unset `completed_at`. -/
theorem c4_add_appends_unconditionally
    (freshId now title d tl p no : String) (ts : List TaskRec) :
    (add_task_to_json freshId now title d tl p no ts).2
      = ts ++ [(add_task_to_json freshId now title d tl p no ts).1]
    ∧ (add_task_to_json freshId now title d tl p no ts).2.length
      = ts.length + 1
    ∧ (∀ i, i < ts.length →
        (add_task_to_json freshId now title d tl p no ts).2.get? i
          = ts.get? i)
    ∧ (add_task_to_json freshId now title d tl p no ts).1
      = { id := freshId, title := strTrim title, description := strTrim d,
          timeline := strTrim tl, priority := lowerStr p, notes := strTrim no,
          completed := false, created_at := now, completed_at := none } := by
  refine ⟨rfl, by simp [add_task_to_json], ?_, rfl⟩
  intro i hi
  simp only [List.get?_eq_getElem?]
  rw [show (add_task_to_json freshId now title d tl p no ts).2
      = ts ++ [(add_task_to_json freshId now title d tl p no ts).1] from rfl]
  exact List.getElem?_append_left hi

/-- Witness for C4 (amended): adding with the whitespace-only title `"   "`
to the empty store appends one record with empty title. -/
theorem c4_add_appends_unconditionally_witness :
    (add_task_to_json "id1" "2024-05-02T00:00:00" "   " "" "" "medium" "" []).2
      = [] ++ [(add_task_to_json "id1" "2024-05-02T00:00:00" "   " "" ""
                "medium" "" []).1]
    ∧ (add_task_to_json "id1" "2024-05-02T00:00:00" "   " "" "" "medium" ""
        []).2.length = ([] : List TaskRec).length + 1
    ∧ (∀ i, i < ([] : List TaskRec).length →
        (add_task_to_json "id1" "2024-05-02T00:00:00" "   " "" "" "medium" ""
          []).2.get? i = ([] : List TaskRec).get? i)
    ∧ (add_task_to_json "id1" "2024-05-02T00:00:00" "   " "" "" "medium" ""
        []).1
      = { id := "id1", title := strTrim "   ", description := strTrim "",
          timeline := strTrim "", priority := lowerStr "medium",
          notes := strTrim "", completed := false,
          created_at := "2024-05-02T00:00:00", completed_at := none } :=
  c4_add_appends_unconditionally "id1" "2024-05-02T00:00:00" "   " "" ""
    "medium" "" []

/-- Counterexample for C5: the tool catalog of the current `src/pop_v3.py`
exposes `complete_task` with its single required parameter named `task_id`,
not `task_identifier` as the claim (and the spec) state. -/
theorem c5_counterexample :
    (get_function_definitions.find? (fun f => f.tname == "complete_task")).map
        (fun f => f.params.map ParamSpec.pname) = some ["task_id"]
    ∧ (["task_id"] : List String) ≠ ["task_identifier"] := ⟨by decide, by decide⟩

/-- Claim C5, amended: in the current `src/pop_v3.py` the catalog's
`complete_task` entry has the single required string parameter `task_id`
(not `task_identifier`), and catalog and dispatch table are in lockstep:
for every catalog entry the dispatcher reads exactly that entry's parameter
names, every name the dispatcher knows appears in the catalog, and the
dispatcher's behavior depends only on the argument keys listed for the
dispatched name. -/
theorem c5_catalog_dispatch_lockstep :
    ((get_function_definitions.find? (fun f => f.tname == "complete_task")).map
        (fun f => (f.params.map ParamSpec.pname, f.required)))
      = some (["task_id"], ["task_id"])
    ∧ (∀ f ∈ get_function_definitions,
        dispatchArgKeys f.tname = some (f.params.map ParamSpec.pname))
    ∧ (∀ name ks, dispatchArgKeys name = some ks →
        name ∈ get_function_definitions.map ToolDef.tname)
    ∧ (∀ name ks, dispatchArgKeys name = some ks →
        ∀ freshId now args args' ts,
          (∀ k ∈ ks, args k = args' k) →
          execute_function_call freshId now name args ts
            = execute_function_call freshId now name args' ts) := by
  refine ⟨by decide, by decide, ?_, ?_⟩
  · intro name ks h
    unfold dispatchArgKeys at h
    split_ifs at h with h1 h2 h3
    · simp [get_function_definitions, h1]
    · simp [get_function_definitions, h2]
    · simp [get_function_definitions, h3]
  · intro name ks h freshId now args args' ts hag
    unfold dispatchArgKeys at h
    split_ifs at h with h1 h2 h3
    · cases h
      subst h1
      have t1 := hag "title" (by simp)
      have t2 := hag "description" (by simp)
      have t3 := hag "timeline" (by simp)
      have t4 := hag "priority" (by simp)
      have t5 := hag "notes" (by simp)
      simp [execute_function_call, t1, t2, t3, t4, t5]
    · subst h2
      simp [execute_function_call]
    · cases h
      subst h3
      have t1 := hag "task_id" (by simp)
      simp [execute_function_call, t1]

/-- Witness for C5: the dispatcher's `complete_task` branch reads only the
catalog-listed key `task_id` — two argument dictionaries that agree on
`task_id` but differ elsewhere produce identical results. -/
theorem c5_catalog_dispatch_lockstep_witness :
    execute_function_call "i0" "2024-05-03T00:00:00" "complete_task"
        (fun k => if k = "task_id" then some "x" else some "junk") []
      = execute_function_call "i0" "2024-05-03T00:00:00" "complete_task"
        (fun k => if k = "task_id" then some "x" else none) [] :=
  c5_catalog_dispatch_lockstep.2.2.2 "complete_task" ["task_id"] rfl
    "i0" "2024-05-03T00:00:00" _ _ []
    (by intro k hk; simp at hk; subst hk; rfl)

/-- Modelled from the spec's words, for comparison with `load_tasks`:
"fails with `PersistenceError` if and only if the underlying document is
unreadable for a reason other than non-existence (for example, malformed
content)".  In the `Doc` model the existing-but-unreadable states are
`malformed` (the spec's own example) and `ioError`. -/
def loadFailsIffUnreadableSpec : Prop :=
  ∀ d : Doc, (∃ e, load_tasks d = .error e) ↔ (d = .malformed ∨ d = .ioError)

/-- Counterexample for C6: the spec-side reading is false at the concrete
document state `Doc.malformed` — `load_tasks` swallows
`json.JSONDecodeError` and returns the empty store instead of failing. -/
theorem c6_counterexample : ¬ loadFailsIffUnreadableSpec := by
  intro h
  obtain ⟨e, he⟩ := (h Doc.malformed).mpr (Or.inl rfl)
  simp [load_tasks] at he

/-- Claim C6, amended: `load_tasks` treats *both* absence of the document
*and* malformed content as an empty store, returning the empty array without
error; it propagates an error exactly when the document is unreadable for
some other reason (`Doc.ioError`). -/
theorem c6_load_error_taxonomy :
    load_tasks Doc.absent = .ok (Json.arr [])
    ∧ load_tasks Doc.malformed = .ok (Json.arr [])
    ∧ (∀ d : Doc, (∃ e, load_tasks d = .error e) ↔ d = .ioError) := by
  refine ⟨rfl, rfl, ?_⟩
  intro d
  cases d <;> simp [load_tasks]

/-- Witness for C6 (amended): the error case is exactly `Doc.ioError`. -/
theorem c6_load_error_taxonomy_witness :
    (∃ e, load_tasks Doc.ioError = .error e) ↔ Doc.ioError = Doc.ioError :=
  c6_load_error_taxonomy.2.2 Doc.ioError

/-- Counterexample for C7: the successful `get_tasks` dispatch returns a
result with **no** `message` entry (its keys are `success`, `tasks`,
`summary`), contradicting "every dispatch ... returns a structured result
object containing a success boolean and a message string". -/
theorem c7_counterexample :
    (execute_function_call "i0" "2024-05-04T00:00:00" "get_tasks"
      (fun _ => none) []).1.message = none := rfl

/-- Claim C7, amended: `execute_function_call` is total (never raises): an
unknown function name yields the structured failure result whose message
names the unknown function and the store is untouched; every branch except
the successful `get_tasks` one carries a message string; and every result
carries a success boolean — in a success-less branch the message is always
present. -/
theorem c7_dispatch_structured (freshId now name : String) (args : Args)
    (ts : List TaskRec) :
    (name ∉ (["add_task", "get_tasks", "complete_task"] : List String) →
      execute_function_call freshId now name args ts
        = ({ success := false,
             message := some ("Unknown function: " ++ name),
             task := none, tasks := none, summary := none }, ts))
    ∧ (name ≠ "get_tasks" →
        ((execute_function_call freshId now name args ts).1.message).isSome
          = true)
    ∧ ((execute_function_call freshId now name args ts).1.success = true
        ∨ ((execute_function_call freshId now name args ts).1.message).isSome
          = true) := by
  have hmsg : name ≠ "get_tasks" →
      ((execute_function_call freshId now name args ts).1.message).isSome
        = true := by
    intro hg
    by_cases h1 : name = "add_task"
    · simp [execute_function_call, h1]
    · by_cases h3 : name = "complete_task"
      · subst h3
        cases harg : args "task_id" with
        | none =>
            simp only [execute_function_call]
            rw [if_neg h1, if_neg hg, if_pos trivial, harg]
            rfl
        | some tid =>
            simp only [execute_function_call]
            rw [if_neg h1, if_neg hg, if_pos trivial, harg]
            simp only []
            split <;> rfl
      · simp [execute_function_call, h1, hg, h3]
  refine ⟨?_, hmsg, ?_⟩
  · intro h
    simp only [List.mem_cons, List.mem_singleton, not_or] at h
    obtain ⟨h1, h2, h3⟩ := h
    simp [execute_function_call, h1, h2, h3]
  · by_cases hg : name = "get_tasks"
    · subst hg
      left
      simp [execute_function_call]
    · exact Or.inr (hmsg hg)

/-- Witness for C7: dispatching the unknown name `frobnicate` yields the
structured failure result naming it, with the store untouched. -/
theorem c7_dispatch_structured_witness :
    execute_function_call "i9" "2024-05-04T00:00:00" "frobnicate"
        (fun _ => none) []
      = ({ success := false,
           message := some ("Unknown function: " ++ "frobnicate"),
           task := none, tasks := none, summary := none }, []) :=
  (c7_dispatch_structured "i9" "2024-05-04T00:00:00" "frobnicate"
    (fun _ => none) []).1 (by decide)

/-- Claim C8: the spend increment of a completed turn is
`prompt_tokens * rate_in + completion_tokens * rate_out`, where the token
totals come from the single completion call when no tool call occurs (and
then the outcome does not depend on the second call at all) and from the sum
of both calls when a tool call occurs; a failed turn — transport error on
either call, or unparseable tool arguments — leaves the spend counter
unchanged. -/
theorem c8_cost_accounting (freshId now : String) (ts : List TaskRec)
    (cost : ℚ) (resp1 resp2 : Except String ChatResponse) :
    (∀ r1, resp1 = .ok r1 → r1.tool_calls = [] →
      ((get_gpt_response freshId now ts cost resp1 resp2).2.1
          = cost + ((r1.usage.prompt_tokens : ℚ) * rate_in
            + (r1.usage.completion_tokens : ℚ) * rate_out)
        ∧ ∀ resp2', get_gpt_response freshId now ts cost resp1 resp2
            = get_gpt_response freshId now ts cost resp1 resp2'))
    ∧ (∀ r1 tc rest args r2, resp1 = .ok r1 → r1.tool_calls = tc :: rest →
        tc.tcargs = some args → resp2 = .ok r2 →
        (get_gpt_response freshId now ts cost resp1 resp2).2.1
          = cost
            + (((r1.usage.prompt_tokens + r2.usage.prompt_tokens : Nat) : ℚ)
                * rate_in
              + ((r1.usage.completion_tokens
                  + r2.usage.completion_tokens : Nat) : ℚ) * rate_out))
    ∧ (∀ e, resp1 = .error e →
        (get_gpt_response freshId now ts cost resp1 resp2).2.1 = cost)
    ∧ (∀ r1 tc rest, resp1 = .ok r1 → r1.tool_calls = tc :: rest →
        tc.tcargs = none →
        (get_gpt_response freshId now ts cost resp1 resp2).2.1 = cost)
    ∧ (∀ r1 tc rest e, resp1 = .ok r1 → r1.tool_calls = tc :: rest →
        resp2 = .error e →
        (get_gpt_response freshId now ts cost resp1 resp2).2.1 = cost) := by
  refine ⟨?_, ?_, ?_, ?_, ?_⟩
  · intro r1 h1 htc
    subst h1
    exact ⟨by simp [get_gpt_response, htc],
           fun resp2' => by simp [get_gpt_response, htc]⟩
  · intro r1 tc rest args r2 h1 htc hargs h2
    subst h1
    subst h2
    simp [get_gpt_response, htc, hargs]
  · intro e h1
    subst h1
    simp [get_gpt_response]
  · intro r1 tc rest h1 htc hargs
    subst h1
    simp [get_gpt_response, htc, hargs]
  · intro r1 tc rest e h1 htc h2
    subst h1
    subst h2
    cases hargs : tc.tcargs <;> simp [get_gpt_response, htc, hargs]

/-- A concrete tool-free model response, for the C8 witness. -/
def c8resp : ChatResponse :=
  { content := "hello", tool_calls := [],
    usage := { prompt_tokens := 100, completion_tokens := 50 } }

/-- Witness for C8: a turn with no tool call and usage 100/50 increments the
spend counter by exactly `100 * rate_in + 50 * rate_out`, independently of
the second (never-issued) completion call. -/
theorem c8_cost_accounting_witness :
    ((get_gpt_response "i" "2024-05-05T00:00:00" [] 0 (.ok c8resp)
        (.error "boom")).2.1
      = 0 + ((c8resp.usage.prompt_tokens : ℚ) * rate_in
        + (c8resp.usage.completion_tokens : ℚ) * rate_out))
    ∧ get_gpt_response "i" "2024-05-05T00:00:00" [] 0 (.ok c8resp)
        (.error "boom")
      = get_gpt_response "i" "2024-05-05T00:00:00" [] 0 (.ok c8resp)
        (.ok c8resp) :=
  ⟨((c8_cost_accounting "i" "2024-05-05T00:00:00" [] 0 (.ok c8resp)
      (.error "boom")).1 c8resp rfl rfl).1,
   ((c8_cost_accounting "i" "2024-05-05T00:00:00" [] 0 (.ok c8resp)
      (.error "boom")).1 c8resp rfl rfl).2 (.ok c8resp)⟩

/-- Claim C9: round-trip — `save_tasks` writes a single JSON array with
exactly one object per record (full rewrite: by its type, `save_tasks`
depends only on the records, not on the previous document), `load_tasks`
reads back exactly that array, and decoding restores all `N` records with
every field equal to the original.  (The pretty-indentation / UTF-8 /
non-ASCII flags of `json.dump` live below this embedding's JSON-value
abstraction.) -/
theorem c9_save_load_roundtrip (ts : List TaskRec) :
    ∃ js, save_tasks ts = Doc.valid (Json.arr js)
      ∧ js.length = ts.length
      ∧ load_tasks (save_tasks ts) = .ok (Json.arr js)
      ∧ decodeTasks (Json.arr js) = some ts :=
  ⟨ts.map taskToJson, rfl, by simp, rfl, decodeTasks_encode ts⟩

/-- Counterexample for C10: with the incomplete tasks `A` (displayed as
number 1) and `see 1` (displayed as number 2), the summary numbers and full
resolution disagree: resolving `"1"` is intercepted by the title-substring
rule 2 (`"1"` occurs in `"see 1"`) and completes the task displayed as
number 2, not the task displayed as number 1. -/
theorem c10_counterexample :
    (Old.activeEnum1 [sampleInc "a" "A", sampleInc "b" "see 1"]).get? 0
      = some (1, sampleInc "a" "A")
    ∧ Old.complete_task_in_json "2024-05-06T00:00:00"
        [sampleInc "a" "A", sampleInc "b" "see 1"] "1"
      = (true, [sampleInc "a" "A",
                markDone "2024-05-06T00:00:00" (sampleInc "b" "see 1")])
    ∧ sampleInc "b" "see 1" ≠ sampleInc "a" "A" := ⟨by decide, by decide, by decide⟩

theorem enumFrom_get?_map {α : Type} (l : List α) (i m : Nat) :
    (l.enumFrom i).get? m = (l.get? m).map (fun a => (i + m, a)) := by
  induction l generalizing i m with
  | nil => simp [List.enumFrom]
  | cons a as ih =>
      cases m with
      | zero => simp [List.enumFrom]
      | succ n =>
          simp only [List.enumFrom, List.get?]
          rw [ih]
          cases as.get? n
          · simp
          · simp only [Option.map_some']
            rw [Nat.add_assoc, Nat.add_comm 1 n]

/-- Claim C10, amended: the numbers the archived summary prints next to
active tasks enumerate exactly the sub-sequence of incomplete tasks in
storage order, the same sub-sequence rule 3 indexes — so whenever rules 1
and 2 do not intercept the identifier `str(n)` (no incomplete task has it as
id and no incomplete title contains it), resolution completes precisely the
task displayed as number `n`.  Without that proviso the coincidence fails:
see `c10_counterexample`, where rule 2 hijacks the numeral. -/
theorem c10_summary_positions (now ident : String) (tasks : List TaskRec)
    (n : Int)
    (hno1 : ∀ t ∈ tasks, ¬(t.id = ident ∧ t.completed = false))
    (hno2 : ∀ t ∈ tasks, t.completed = false →
      strContains (lowerStr t.title) (lowerStr ident) = false)
    (hparse : pyParseInt ident = some n)
    (hlo : 1 ≤ n)
    (hhi : n ≤ ((tasks.filter (fun u => !u.completed)).length : Int)) :
    ∃ k t, (Old.activeEnum tasks).get? (n - 1).toNat = some (k, t)
      ∧ (Old.activeEnum1 tasks).get? (n - 1).toNat = some (n.toNat, t)
      ∧ Old.complete_task_in_json now tasks ident
        = (true, tasks.set k (markDone now t)) := by
  obtain ⟨k, t, henum, hfil, hcomp⟩ :=
    rule3_resolution now ident tasks n hno1 hno2 hparse hlo hhi
  refine ⟨k, t, henum, ?_, hcomp⟩
  rw [Old.activeEnum1, enumFrom_get?_map, hfil, Option.map_some']
  have hn : 1 + (n - 1).toNat = n.toNat := by omega
  rw [hn]

/-- Witness for C10 (amended): tasks `[Done (completed), Alpha, Beta]` — the
summary displays `1. Alpha`, `2. Beta`; resolving `"2"` (not intercepted by
rules 1-2) completes `Beta`, the task displayed as number 2. -/
theorem c10_summary_positions_witness :
    (Old.activeEnum1
        [sampleDone "x" "Done", sampleInc "a" "Alpha", sampleInc "b" "Beta"]).get?
        ((2 : Int) - 1).toNat = some ((2 : Int).toNat, sampleInc "b" "Beta")
    ∧ Old.complete_task_in_json "2024-05-07T00:00:00"
        [sampleDone "x" "Done", sampleInc "a" "Alpha", sampleInc "b" "Beta"]
        "2"
      = (true, [sampleDone "x" "Done", sampleInc "a" "Alpha",
                markDone "2024-05-07T00:00:00" (sampleInc "b" "Beta")]) := by
  obtain ⟨k, t, henum, hdisp, hcomp⟩ :=
    c10_summary_positions "2024-05-07T00:00:00" "2"
      [sampleDone "x" "Done", sampleInc "a" "Alpha", sampleInc "b" "Beta"] 2
      (by decide) (by decide) (by decide) (by decide) (by decide)
  have hval : (Old.activeEnum
      [sampleDone "x" "Done", sampleInc "a" "Alpha", sampleInc "b" "Beta"]).get?
      ((2 : Int) - 1).toNat = some (2, sampleInc "b" "Beta") := by decide
  have h := Option.some.inj (hval.symm.trans henum)
  injection h.symm with hk ht
  subst hk
  subst ht
  exact ⟨hdisp, by simpa using hcomp⟩
